import Mathlib

/-!
Verification of the natural-language specification of the raindrop-takehome
repository (a natural-language-to-SQL pipeline) against a shallow Lean
embedding of its Go source.

The embedding covers:
* `pkg/shared` schema model and grammar synthesis (`Schema.GenerateGrammar`,
  `sanitizeColumnName`);
* the legacy `package main` copy of the grammar generator (column terminals
  numbered in map-iteration order);
* the OpenAI response processing of `OpenAIClient.GenerateSQLWithTime`;
* the Tinybird query dispatch (`TinybirdClient.ExecuteQuery` preprocessing);
* the eval harness of `pkg/shared/eval.go` (`RunEvals`, `runEval`,
  `runUnsupportedEval`, `valuesEqual`, `ComputeSummary`).

Modelling conventions: Go strings are `String`; Go float64 values are
modelled as rationals (`ℚ`), so the tolerance arithmetic is exact rather
than IEEE-754; Go `time.Time` values appear only through their formatted
text, so reference times are carried as `String`; external HTTP calls are
oracles passed in as function arguments; Go map iteration order, which the
language leaves unspecified, is made explicit as a list argument that is a
permutation of the key set.
-/

set_option maxRecDepth 20000

/-! ### Byte-lexicographic string order (the order used by Go `sort.Strings`)

Go sorts strings by byte-wise comparison; on UTF-8 encoded text this agrees
with the code-point lexicographic order modelled here. -/

/-- Lexicographic less-or-equal on character lists, comparing code points. -/
def charsLe : List Char → List Char → Bool
  | [], _ => true
  | _ :: _, [] => false
  | a :: as, b :: bs =>
    if a < b then true
    else if b < a then false
    else charsLe as bs

/-- Go string comparison: lexicographic on the character sequence. -/
def strLe (a b : String) : Bool := charsLe a.data b.data

/-- `strLe` as a relation, for use with the sorting lemmas. -/
def StrLeR (a b : String) : Prop := strLe a b = true

instance : DecidableRel StrLeR := fun a b => instDecidableEqBool (strLe a b) true

theorem charsLe_total : ∀ a b : List Char, charsLe a b = true ∨ charsLe b a = true := by
  intro a
  induction a with
  | nil => intro b; left; rfl
  | cons x xs ih =>
    intro b
    cases b with
    | nil => right; rfl
    | cons y ys =>
      by_cases hxy : x < y
      · left; simp [charsLe, hxy]
      · by_cases hyx : y < x
        · right; simp [charsLe, hyx, lt_asymm hyx]
        · rcases ih ys with h | h
          · left; simp [charsLe, hxy, hyx, h]
          · right; simp [charsLe, hxy, hyx, h]

theorem charsLe_trans : ∀ a b c : List Char,
    charsLe a b = true → charsLe b c = true → charsLe a c = true := by
  intro a
  induction a with
  | nil => intro b c _ _; rfl
  | cons x xs ih =>
    intro b c hab hbc
    cases b with
    | nil => simp [charsLe] at hab
    | cons y ys =>
      cases c with
      | nil => simp [charsLe] at hbc
      | cons z zs =>
        simp only [charsLe] at hab hbc ⊢
        by_cases hxy : x < y
        · -- x < y, and y ≤ z in the lexicographic sense
          by_cases hyz : y < z
          · simp [lt_trans hxy hyz]
          · by_cases hzy : z < y
            · simp [charsLe, hyz, hzy] at hbc
            · have hyz' : y = z := le_antisymm (le_of_not_lt hzy) (le_of_not_lt hyz)
              simp [hyz' ▸ hxy]
        · by_cases hyx : y < x
          · simp [hyx, lt_asymm hyx] at hab
          · have hxy' : x = y := le_antisymm (le_of_not_lt hyx) (le_of_not_lt hxy)
            subst hxy'
            simp only [lt_irrefl, if_false] at hab
            by_cases hyz : x < z
            · simp [hyz]
            · by_cases hzy : z < x
              · simp [hyz, hzy] at hbc
              · simp only [hyz, hzy, if_false]
                exact ih ys zs hab (by simpa [charsLe, hyz, hzy] using hbc)

theorem charsLe_antisymm : ∀ a b : List Char,
    charsLe a b = true → charsLe b a = true → a = b := by
  intro a
  induction a with
  | nil =>
    intro b _ hba
    cases b with
    | nil => rfl
    | cons y ys => simp [charsLe] at hba
  | cons x xs ih =>
    intro b hab hba
    cases b with
    | nil => simp [charsLe] at hab
    | cons y ys =>
      by_cases hxy : x < y
      · simp [charsLe, hxy, lt_asymm hxy] at hba
      · by_cases hyx : y < x
        · simp [charsLe, hxy, hyx] at hab
        · have hxy' : x = y := le_antisymm (le_of_not_lt hyx) (le_of_not_lt hxy)
          subst hxy'
          simp only [charsLe, lt_irrefl, if_false] at hab hba
          rw [ih ys hab hba]

instance : IsTotal String StrLeR :=
  ⟨fun a b => charsLe_total a.data b.data⟩

instance : IsTrans String StrLeR :=
  ⟨fun a b c hab hbc => charsLe_trans a.data b.data c.data hab hbc⟩

instance : IsAntisymm String StrLeR :=
  ⟨fun a b hab hba => by
    cases a with
    | mk da =>
      cases b with
      | mk db => exact congrArg String.mk (charsLe_antisymm da db hab hba)⟩

/-- The sorted enumeration used by the grammar generator, modelling Go
    `sort.Strings` (the sorted permutation of a string list is unique, so
    insertion sort is a faithful model of the sort the source calls). -/
def sortStrings (l : List String) : List String := l.insertionSort StrLeR

theorem sortStrings_perm (l : List String) : List.Perm (sortStrings l) l :=
  List.perm_insertionSort StrLeR l

theorem mem_sortStrings {a : String} {l : List String} : a ∈ sortStrings l ↔ a ∈ l :=
  (sortStrings_perm l).mem_iff

theorem sortStrings_eq_of_perm {l₁ l₂ : List String} (h : List.Perm l₁ l₂) :
    sortStrings l₁ = sortStrings l₂ :=
  List.eq_of_perm_of_sorted
    ((sortStrings_perm l₁).trans (h.trans (sortStrings_perm l₂).symm))
    (List.sorted_insertionSort StrLeR l₁)
    (List.sorted_insertionSort StrLeR l₂)

/-! ### Schema model (`pkg/shared/schema.go`)

Source: `Column`, `Datasource`, `Schema` structs. -/

/-- A column in a datasource: `Column{Name, Type string}`. -/
structure Column where
  Name : String
  «Type» : String
deriving DecidableEq, Repr

/-- A Tinybird datasource: `Datasource{Name string; Columns []Column}`. -/
structure Datasource where
  Name : String
  Columns : List Column
deriving DecidableEq, Repr

/-- All datasources and their columns: `Schema{Datasources []Datasource}`. -/
structure Schema where
  Datasources : List Datasource
deriving DecidableEq, Repr

/-- The raw column names of all datasources in source order (the order the
    generator inserts them into its `columnSet` map). -/
def allColumnNames (s : Schema) : List String :=
  (s.Datasources.map (fun ds => ds.Columns.map Column.Name)).flatten

/-- The key set of the generator's `columnSet` map, as the duplicate-free
    list of raw column names in first-occurrence order. Any enumeration of
    the Go map keys is a permutation of this list. -/
def distinctColumnNames (s : Schema) : List String :=
  (allColumnNames s).dedup

/-! ### Grammar synthesis (`pkg/shared/schema.go`, `Schema.GenerateGrammar`
    and `sanitizeColumnName`) -/

/-- One character of `sanitizeColumnName`: the regex `[^A-Za-z0-9_]`
    replaces every character outside the class by an underscore. -/
def sanitizeChar (c : Char) : Char :=
  if ('A' ≤ c ∧ c ≤ 'Z') ∨ ('a' ≤ c ∧ c ≤ 'z') ∨ ('0' ≤ c ∧ c ≤ '9') ∨ c = '_' then c
  else '_'

/-- ASCII upper-casing, the effect of Go `strings.ToUpper` on the output of
    the sanitizing regex (which is all-ASCII). -/
def asciiUpper (c : Char) : Char :=
  if 'a' ≤ c ∧ c ≤ 'z' then Char.ofNat (c.toNat - 32) else c

/-- `sanitizeColumnName`: replace every character outside `[A-Za-z0-9_]`
    with `_`, upper-case, and prefix with `COL_` (the regex replacement and
    `strings.ToUpper` both act rune by rune). -/
def sanitizeColumnName (name : String) : String :=
  "COL_" ++ String.mk ((name.data.map sanitizeChar).map asciiUpper)

/-- The schema-independent prefix of the generated grammar text
    (everything `GenerateGrammar` writes before the `# Tables` section). -/
def grammarHeader : String :=
  "# Auto-generated ClickHouse SQL grammar\n\nSP: \" \"\nCOMMA: \",\"\nSEMI: \";\"\nLPAREN: \"(\"\nRPAREN: \")\"\nGT: \">\"\nLT: \"<\"\nGTE: \">=\"\nLTE: \"<=\"\nEQ: \"=\"\nNEQ: \"!=\"\n\nstart: select_stmt SEMI\nselect_stmt: \"SELECT\" SP select_list SP \"FROM\" SP table (SP where_clause)? (SP group_clause)? (SP order_clause)? (SP limit_clause)?\nselect_list: select_item (COMMA SP select_item)*\nselect_item: agg_expr | column | star\nstar: \"*\"\nagg_expr: agg_func LPAREN agg_arg RPAREN (SP \"AS\" SP alias)?\nagg_func: \"SUM\" | \"COUNT\" | \"AVG\" | \"MIN\" | \"MAX\"\nagg_arg: column | star\nalias: IDENTIFIER\n\n"

/-- The schema-independent suffix of the generated grammar text (the
    `where_clause` block through the terminal definitions). -/
def grammarFooter : String :=
  "where_clause: \"WHERE\" SP condition (SP \"AND\" SP condition)*\ncondition: column SP compare_op SP value\ncompare_op: GTE | LTE | GT | LT | EQ | NEQ\nvalue: STRING | NUMBER | DATETIME\ngroup_clause: \"GROUP\" SP \"BY\" SP column (COMMA SP column)*\norder_clause: \"ORDER\" SP \"BY\" SP sort_item (COMMA SP sort_item)*\nsort_item: column (SP sort_dir)?\nsort_dir: \"ASC\" | \"DESC\"\nlimit_clause: \"LIMIT\" SP NUMBER\nIDENTIFIER: /[A-Za-z_][A-Za-z0-9_]*/\nNUMBER: /[0-9]+(\\.[0-9]+)?/\nSTRING: /'[^']*'/\nDATETIME: /'[0-9]{4}-[0-9]{2}-[0-9]{2}( [0-9]{2}:[0-9]{2}:[0-9]{2})?'/\n"

/-- `strings.Join(parts, sep)`. -/
def goJoin (sep : String) : List String → String
  | [] => ""
  | [x] => x
  | x :: xs => x ++ sep ++ goJoin sep xs

/-- The `table:` production: if there is at least one datasource, an
    alternation of the sorted, double-quoted table names; otherwise the
    catch-all `table: IDENTIFIER`. -/
def tableSection (s : Schema) : String :=
  if s.Datasources.length > 0 then
    "table: " ++
      goJoin " | " ((sortStrings (s.Datasources.map Datasource.Name)).map
        (fun n => "\"" ++ n ++ "\"")) ++ "\n\n"
  else
    "table: IDENTIFIER\n\n"

/-- The `# Columns` body for a given enumeration of the `columnSet` keys:
    one terminal definition per sorted distinct raw name, then the `column:`
    alternation of the sanitized terminal names; or the catch-all
    `column: IDENTIFIER` when there are no columns. -/
def columnSectionOf (colEnum : List String) : String :=
  if colEnum.length > 0 then
    String.join ((sortStrings colEnum).map
      (fun c => sanitizeColumnName c ++ ": \"" ++ c ++ "\"\n")) ++
    "column: " ++ goJoin " | " ((sortStrings colEnum).map sanitizeColumnName) ++ "\n\n"
  else
    "column: IDENTIFIER\n\n"

/-- `Schema.GenerateGrammar` with the iteration order of the `columnSet`
    map made explicit: `colEnum` is the order in which Go hands back the
    map keys (always some permutation of `distinctColumnNames`). -/
def GenerateGrammarWith (s : Schema) (colEnum : List String) : String :=
  grammarHeader ++ "# Tables\n" ++ tableSection s ++ "# Columns\n" ++
    columnSectionOf colEnum ++ grammarFooter

/-- `Schema.GenerateGrammar` (shared package): the grammar text for the
    canonical key enumeration. -/
def GenerateGrammar (s : Schema) : String :=
  GenerateGrammarWith s (distinctColumnNames s)

/-- The language of the `IDENTIFIER` terminal,
    `/[A-Za-z_][A-Za-z0-9_]*/`. -/
def matchesIDENTIFIER (w : String) : Bool :=
  match w.data with
  | [] => false
  | c :: cs =>
    (('A' ≤ c ∧ c ≤ 'Z') ∨ ('a' ≤ c ∧ c ≤ 'z') ∨ c = '_') &&
    cs.all (fun d => ('A' ≤ d ∧ d ≤ 'Z') ∨ ('a' ≤ d ∧ d ≤ 'z') ∨ ('0' ≤ d ∧ d ≤ '9') ∨ d = '_')

/-- The set of table tokens admitted by the emitted `table:` production:
    with at least one datasource it is the alternation of the quoted table
    names produced by `tableSection`; with none, the production is
    `table: IDENTIFIER` and admits every `IDENTIFIER` match. -/
def tableAdmits (s : Schema) (w : String) : Bool :=
  if s.Datasources.length > 0 then
    (sortStrings (s.Datasources.map Datasource.Name)).contains w
  else
    matchesIDENTIFIER w

/-- The set of column tokens admitted by the emitted `column:` production:
    each referenced terminal matches exactly the raw name quoted in its
    definition line, so with at least one column the production admits the
    enumerated distinct raw names; with none it is `column: IDENTIFIER`. -/
def columnAdmits (s : Schema) (w : String) : Bool :=
  if (distinctColumnNames s).length > 0 then
    (sortStrings (distinctColumnNames s)).contains w
  else
    matchesIDENTIFIER w

/-! ### Legacy grammar generator (`backend` copy, `package main`)

The repository keeps an older `package main` copy of `Schema.GenerateGrammar`.
It differs from the shared one: table names are emitted in slice order
without sorting, and column terminals are named `COL_0`, `COL_1`, ... in the
order Go happens to iterate the `columnSet` map, without sorting. -/

/-- The fixed prefix of the legacy grammar (everything before the
    `// ---------- Tables ----------` line). -/
def legacyHeader : String :=
  "// Auto-generated ClickHouse SQL grammar\n// ---------- Whitespace ----------\nSP: \" \"\n\n// ---------- Punctuation ----------\nCOMMA: \",\"\nSEMI: \";\"\nLPAREN: \"(\"\nRPAREN: \")\"\n\n// ---------- Operators ----------\nGT: \">\"\nLT: \"<\"\nGTE: \">=\"\nLTE: \"<=\"\nEQ: \"=\"\nNEQ: \"!=\"\n\n// ---------- Start ----------\nstart: select_stmt SEMI\n\n// ---------- SELECT statement ----------\nselect_stmt: \"SELECT\" SP select_list SP \"FROM\" SP table (SP where_clause)? (SP group_clause)? (SP order_clause)? (SP limit_clause)?\n\n// ---------- Select list ----------\nselect_list: select_item (COMMA SP select_item)*\nselect_item: agg_expr | column | star\nstar: \"*\"\n\n// ---------- Aggregation ----------\nagg_expr: agg_func LPAREN agg_arg RPAREN (SP \"AS\" SP alias)?\nagg_func: \"SUM\" | \"COUNT\" | \"AVG\" | \"MIN\" | \"MAX\"\nagg_arg: column | star\nalias: IDENTIFIER\n\n"

/-- The fixed suffix of the legacy grammar (the WHERE clause block through
    the terminal definitions). -/
def legacyFooter : String :=
  "// ---------- WHERE clause ----------\nwhere_clause: \"WHERE\" SP condition (SP \"AND\" SP condition)*\ncondition: column SP compare_op SP value\ncompare_op: GTE | LTE | GT | LT | EQ | NEQ\nvalue: STRING | NUMBER | DATETIME\n\n// ---------- GROUP BY ----------\ngroup_clause: \"GROUP\" SP \"BY\" SP column (COMMA SP column)*\n\n// ---------- ORDER BY ----------\norder_clause: \"ORDER\" SP \"BY\" SP sort_item (COMMA SP sort_item)*\nsort_item: column (SP sort_dir)?\nsort_dir: \"ASC\" | \"DESC\"\n\n// ---------- LIMIT ----------\nlimit_clause: \"LIMIT\" SP NUMBER\n\n// ---------- Terminals ----------\nIDENTIFIER: /[A-Za-z_][A-Za-z0-9_]*/\nNUMBER: /[0-9]+(\\.[0-9]+)?/\nSTRING: /'[^']*'/\nDATETIME: /'[0-9]{4}-[0-9]{2}-[0-9]{2}( [0-9]{2}:[0-9]{2}:[0-9]{2})?'/\n"

/-- Legacy `table:` production: the quoted datasource names in slice order
    (no sorting), or the `IDENTIFIER` fallback. -/
def legacyTableSection (s : Schema) : String :=
  if s.Datasources.length > 0 then
    "table: " ++
      goJoin " | " ((s.Datasources.map Datasource.Name).map
        (fun n => "\"" ++ n ++ "\"")) ++ "\n\n"
  else
    "table: IDENTIFIER\n\n"

/-- Legacy `// ---------- Columns ----------` body for a given map
    iteration order: terminal `COL_i` is the i-th enumerated raw name. -/
def legacyColumnSection (colEnum : List String) : String :=
  if colEnum.length > 0 then
    String.join (colEnum.enum.map
      (fun p => "COL_" ++ toString p.1 ++ ": \"" ++ p.2 ++ "\"\n")) ++
    "column: " ++ goJoin " | " (colEnum.enum.map (fun p => "COL_" ++ toString p.1)) ++ "\n\n"
  else
    "column: IDENTIFIER\n\n"

/-- The legacy `Schema.GenerateGrammar` with the `columnSet` map iteration
    order made explicit. -/
def legacyGenerateGrammarWith (s : Schema) (colEnum : List String) : String :=
  legacyHeader ++ "// ---------- Tables ----------\n" ++ legacyTableSection s ++
    "// ---------- Columns ----------\n" ++ legacyColumnSection colEnum ++ legacyFooter

/-! ### Tolerant value comparison (`pkg/shared/eval.go`, `valuesEqual`,
    `toFloat`)

Scalar values as decoded from JSON responses. Go float64 arithmetic is
modelled exactly over `ℚ`. -/

/-- A Go `interface{}` scalar as it reaches `valuesEqual`: one constructor
    per dynamic type the code distinguishes. -/
inductive Value
  | vFloat64 (q : ℚ)
  | vFloat32 (q : ℚ)
  | vInt (n : ℤ)
  | vInt64 (n : ℤ)
  | vStr (s : String)
  | vBool (b : Bool)
  | vNull
deriving DecidableEq, Repr

/-- `toFloat`: the type switch accepting float64, float32, int and int64. -/
def toFloat : Value → Option ℚ
  | .vFloat64 q => some q
  | .vFloat32 q => some q
  | .vInt n => some (n : ℚ)
  | .vInt64 n => some (n : ℚ)
  | _ => none

/-- The conditional negation `if x < 0 { x = -x }` used for both `diff`
    and `avg` in `valuesEqual`. -/
def goAbs (x : ℚ) : ℚ := if x < 0 then -x else x

/-- The numeric branch of `valuesEqual`: exact equality, else relative
    difference against the absolute mean, with a plain absolute comparison
    when the mean is zero. -/
def valuesEqualNum (af bf : ℚ) : Bool :=
  if af = bf then true
  else if goAbs ((af + bf) / 2) = 0 then decide (goAbs (af - bf) < 1 / 10000)
  else decide (goAbs (af - bf) / goAbs ((af + bf) / 2) < 1 / 10000)

/-- `valuesEqual`: numeric tolerance when both sides convert to float,
    otherwise `reflect.DeepEqual` (structural equality). -/
def valuesEqual (a b : Value) : Bool :=
  match toFloat a, toFloat b with
  | some af, some bf => valuesEqualNum af bf
  | _, _ => decide (a = b)

/-- The tolerance rule exactly as the specification words it: relative
    difference `|a-b| / max(|avg(a,b)|, epsilon)` below `1e-4`, for an
    unspecified constant `epsilon`. -/
def specTolerantEqual (eps af bf : ℚ) : Bool :=
  decide (af = bf ∨ |af - bf| / max |(af + bf) / 2| eps < 1 / 10000)

/-! ### Constrained generation client (`pkg/shared/openai.go`) -/

/-- One item of the Responses API output array (the fields the code
    reads; `call_id` and `content` are never inspected). -/
structure OutputItem where
  «Type» : String
  Name : String
  Input : String
deriving DecidableEq, Repr

/-- The parsed argument of the `cannot_answer` function call. -/
structure CannotAnswerInput where
  Reason : String
deriving DecidableEq, Repr

/-- The grammar-constrained tool offered to the service. -/
structure ToolFormat where
  «Type» : String
  Syntax : String
  Definition : String
deriving DecidableEq, Repr

/-- A tool declaration in the request (the JSON-schema `Parameters` of the
    `cannot_answer` tool is a fixed constant the code never reads back, so
    it is not modelled). -/
structure Tool where
  «Type» : String
  Name : String
  Description : String
  Format : Option ToolFormat
deriving DecidableEq, Repr

/-- The request body sent to the Responses API. -/
structure ResponsesRequest where
  Model : String
  Input : String
  Tools : List Tool
  ParallelToolCalls : Bool
deriving DecidableEq, Repr

/-- The client state: API key plus the grammar and tool description
    installed by `SetSchema`. -/
structure OpenAIClient where
  apiKey : String
  grammar : String
  toolDescription : String
deriving DecidableEq, Repr

/-- `SetSchema`: install the generated grammar and tool description.
    (`GenerateToolDescription` is modelled only through the field it fills,
    as no claim depends on its text.) -/
def SetSchema (c : OpenAIClient) (grammar toolDescription : String) : OpenAIClient :=
  { c with grammar := grammar, toolDescription := toolDescription }

/-- What the external generation call can come back with, as the code
    distinguishes the cases: transport failure, non-200 status, a body that
    fails to unmarshal, or a parsed output array. -/
inductive ServiceReply
  | transportError (msg : String)
  | httpError (status : Nat) (body : String)
  | badJSON
  | ok (items : List OutputItem)

/-- The outcome of `GenerateSQLWithTime`: a SQL string, the
    `ErrUnsupportedQuery` refusal error, or any other error. -/
inductive SQLResult
  | sql (text : String)
  | unsupported (reason : String)
  | err (msg : String)
deriving DecidableEq, Repr

/-- The instruction text built by `GenerateSQLWithTime` (its
    `fmt.Sprintf`, with the formatted time substituted twice). -/
def buildInput (timeStr naturalLanguage : String) : String :=
  "Convert this natural language query to a valid ClickHouse SQL query.\n\nIf the query CAN be answered with the available schema, call the sql_generator tool.\nIf the query CANNOT be answered (asks for data not in the schema, or is unrelated to the database), call the cannot_answer tool with a brief explanation.\n\nCurrent UTC time: " ++
    timeStr ++
    "\nUse this timestamp for any relative time calculations (e.g., 'last 30 hours' means since " ++
    timeStr ++ " minus 30 hours).\n\nQuery: " ++ naturalLanguage

/-- The request body `GenerateSQLWithTime` marshals: the grammar-constrained
    `sql_generator` custom tool and the free-form `cannot_answer` function
    tool. -/
def buildRequest (c : OpenAIClient) (naturalLanguage timeStr : String) : ResponsesRequest :=
  { Model := "gpt-5"
    Input := buildInput timeStr naturalLanguage
    Tools :=
      [ { «Type» := "custom"
          Name := "sql_generator"
          Description := c.toolDescription
          Format := some { «Type» := "grammar", Syntax := "lark", Definition := c.grammar } }
      , { «Type» := "function"
          Name := "cannot_answer"
          Description := "Call this when the query cannot be answered with the available database schema. Use this for questions about data that doesn't exist in the tables, or for completely unrelated questions."
          Format := none } ]
    ParallelToolCalls := false }

/-- The loop over `result.Output`: the first `sql_generator` custom tool
    call yields its input as SQL; the first `cannot_answer` function call
    yields `ErrUnsupportedQuery`, with a fixed generic reason when its
    payload does not unmarshal; if no item matches, a generic error.
    `parse` is the oracle for `json.Unmarshal` into `CannotAnswerInput`. -/
def processOutput (parse : String → Option CannotAnswerInput) : List OutputItem → SQLResult
  | [] => .err "no SQL generated in response"
  | item :: rest =>
    if item.«Type» = "custom_tool_call" ∧ item.Name = "sql_generator" then
      .sql item.Input
    else if item.«Type» = "function_call" ∧ item.Name = "cannot_answer" then
      match parse item.Input with
      | none => .unsupported "Query cannot be answered with available data"
      | some input => .unsupported input.Reason
    else
      processOutput parse rest

/-- `GenerateSQLWithTime`: guard that `SetSchema` ran, then call the
    service on the built request and process its output. `service` is the
    oracle for the HTTP round trip, `parse` for `json.Unmarshal` of the
    refusal payload. -/
def GenerateSQLWithTime (c : OpenAIClient) (service : ResponsesRequest → ServiceReply)
    (parse : String → Option CannotAnswerInput)
    (naturalLanguage timeStr : String) : SQLResult :=
  if c.grammar = "" ∨ c.toolDescription = "" then
    .err "schema not set: call SetSchema before GenerateSQL"
  else
    match service (buildRequest c naturalLanguage timeStr) with
    | .transportError msg => .err ("failed to execute request: " ++ msg)
    | .httpError status body => .err ("openai error (" ++ toString status ++ "): " ++ body)
    | .badJSON => .err "failed to parse response"
    | .ok items => processOutput parse items

/-- `GenerateSQL`: delegate to `GenerateSQLWithTime` at the current wall
    clock (the formatted `time.Now().UTC()` is passed in as `nowStr`). -/
def GenerateSQL (c : OpenAIClient) (service : ResponsesRequest → ServiceReply)
    (parse : String → Option CannotAnswerInput)
    (naturalLanguage nowStr : String) : SQLResult :=
  GenerateSQLWithTime c service parse naturalLanguage nowStr

/-! ### Query executor (`TinybirdClient.ExecuteQuery`) -/

/-- Go `unicode.IsSpace` on the Latin-1 range: space, tab, newline,
    vertical tab, form feed, carriage return, NEL and NBSP. (SQL text is
    ASCII; higher space code points behave the same way.) -/
def isGoSpace (c : Char) : Bool :=
  c.toNat = 0x20 ∨ (0x9 ≤ c.toNat ∧ c.toNat ≤ 0xD) ∨ c.toNat = 0x85 ∨ c.toNat = 0xA0

/-- `strings.TrimSpace`: drop leading and trailing white space. -/
def goTrimSpace (s : String) : String :=
  String.mk (((s.data.dropWhile isGoSpace).reverse.dropWhile isGoSpace).reverse)

/-- `strings.TrimSuffix`: remove `suffix` once if the string ends with it
    (Go `s[:len(s)-len(suffix)]`, expressed on the character sequence). -/
def goTrimSuffix (s suffix : String) : String :=
  if suffix.data.isSuffixOf s.data then
    String.mk (s.data.take (s.data.length - suffix.data.length))
  else s

/-- The query string `ExecuteQuery` dispatches (the value of `query` that
    is URL-escaped into the `q` parameter): trim surrounding space, strip
    one trailing semicolon, append ` FORMAT JSON`. -/
def ExecuteQueryDispatch (sql : String) : String :=
  goTrimSuffix (goTrimSpace sql) ";" ++ " FORMAT JSON"

/-- The transformation as the claim words it: remove a single trailing
    semicolon character when one is present. -/
def specStripOneSemi (s : String) : String :=
  if [';'].isSuffixOf s.data then String.mk (s.data.take (s.data.length - 1)) else s

/-- A row of the Tinybird JSON answer: Go `map[string]interface{}`,
    modelled as an association list with distinct keys. -/
abbrev Row := List (String × Value)

/-- The parsed Tinybird response (the `meta` and `statistics` fields are
    decoded by the code but never read by the harness, so they are not
    modelled). -/
structure TinybirdResponse where
  Rows : ℤ
  Data : List Row
deriving DecidableEq, Repr

/-! ### Eval harness (`pkg/shared/eval.go`) -/

/-- A test case: natural-language query plus known-correct SQL. The
    reference time is carried as its formatted text. -/
structure EvalCase where
  Name : String
  Query : String
  ExpectedSQL : String
  ReferenceTime : Option String
  ExpectUnsupported : Bool
deriving DecidableEq, Repr

/-- Pass/fail for a single test. -/
structure EvalResult where
  Name : String
  Passed : Bool
  Query : String
  ExpectedSQL : String
  GeneratedSQL : String
  Error : String
deriving DecidableEq, Repr

/-- The summary counts (`pass_rate` is a Go float64, modelled as `ℚ`). -/
structure EvalSummary where
  Total : ℕ
  Passed : ℕ
  Failed : ℕ
  PassRate : ℚ
deriving DecidableEq, Repr

/-- `rowEqual`: two single-column rows compare by their lone values;
    otherwise sizes must agree and every key of `a` must be present in `b`
    with a tolerantly-equal value. -/
def rowEqual (a b : Row) : Bool :=
  match a, b with
  | [(_, va)], [(_, vb)] => valuesEqual va vb
  | _, _ =>
    decide (a.length = b.length) &&
    a.all (fun kv =>
      match b.lookup kv.1 with
      | some vb => valuesEqual kv.2 vb
      | none => false)

/-- `dataEqual`: equal length and positionally equal rows. -/
def dataEqual (a b : List Row) : Bool :=
  decide (a.length = b.length) && (a.zip b).all (fun p => rowEqual p.1 p.2)

/-- What a generation call returns, as far as the harness distinguishes
    outcomes: SQL, the `ErrUnsupportedQuery` error (matched by
    `errors.As`), or any other error with its message. -/
inductive GenOutcome
  | ok (sql : String)
  | unsupportedErr (reason : String)
  | otherErr (msg : String)
deriving DecidableEq, Repr

/-- The `Error()` text of a generation failure (`ErrUnsupportedQuery`
    prints its reason). -/
def genErrMsg : GenOutcome → String
  | .ok _ => ""
  | .unsupportedErr reason => reason
  | .otherErr msg => msg

/-- The zero-valued result all branches of `runEval` start from. -/
def baseResult (tc : EvalCase) : EvalResult :=
  { Name := tc.Name, Passed := false, Query := tc.Query,
    ExpectedSQL := tc.ExpectedSQL, GeneratedSQL := "", Error := "" }

/-- `runUnsupportedEval`: the case passes exactly when generation fails
    with `ErrUnsupportedQuery`. -/
def runUnsupportedEval (gen : String → Option String → GenOutcome) (tc : EvalCase) : EvalResult :=
  let base : EvalResult :=
    { Name := tc.Name, Passed := false, Query := tc.Query,
      ExpectedSQL := "(expected to be unsupported)", GeneratedSQL := "", Error := "" }
  match gen tc.Query tc.ReferenceTime with
  | .ok _ => { base with Error := "expected ErrUnsupportedQuery but got valid SQL" }
  | .unsupportedErr reason =>
    { base with GeneratedSQL := "(refused: " ++ reason ++ ")", Passed := true }
  | .otherErr msg => { base with Error := "expected ErrUnsupportedQuery but got: " ++ msg }

/-- `runEval`: execute the reference SQL, generate SQL (with the reference
    time when the case fixes one), execute it, and compare row count and
    data. `gen` is the oracle for `GenerateSQL`/`GenerateSQLWithTime`,
    `exec` for `ExecuteQuery` (`Except.error` carries the `err.Error()`
    text). -/
def runEval (gen : String → Option String → GenOutcome)
    (exec : String → Except String TinybirdResponse) (tc : EvalCase) : EvalResult :=
  if tc.ExpectUnsupported then runUnsupportedEval gen tc
  else
    match exec tc.ExpectedSQL with
    | .error e => { baseResult tc with Error := "expected SQL failed: " ++ e }
    | .ok expected =>
      match gen tc.Query tc.ReferenceTime with
      | .ok generatedSQL =>
        match exec generatedSQL with
        | .error e =>
          { baseResult tc with
            GeneratedSQL := generatedSQL
            Error := "generated SQL failed: " ++ e }
        | .ok generated =>
          if expected.Rows ≠ generated.Rows then
            { baseResult tc with
              GeneratedSQL := generatedSQL
              Error := "row count: expected " ++ toString expected.Rows ++
                ", got " ++ toString generated.Rows }
          else if ¬ dataEqual expected.Data generated.Data then
            { baseResult tc with GeneratedSQL := generatedSQL, Error := "data mismatch" }
          else
            { baseResult tc with GeneratedSQL := generatedSQL, Passed := true }
      | outcome =>
        { baseResult tc with Error := "generation failed: " ++ genErrMsg outcome }

/-- The scan over the results that picks the summary error: the first
    non-passed result, formatted as in the source; the loop breaks there. -/
def firstFailure : List EvalResult → Option String
  | [] => none
  | r :: rest =>
    if ¬ r.Passed then some ("eval " ++ r.Name ++ " failed: " ++ r.Error)
    else firstFailure rest

/-- The body of `RunEvals` for an arbitrary case list: one result slot per
    case, filled independently (the Go version runs one goroutine per case
    writing into a disjoint, pre-sized slot of `results` and joins on a
    `WaitGroup`, which a pure map models), then the scan for the first
    failure. -/
def RunEvalsCore (gen : String → Option String → GenOutcome)
    (exec : String → Except String TinybirdResponse)
    (cases : List EvalCase) : List EvalResult × Option String :=
  let results := cases.map (runEval gen exec)
  (results, firstFailure results)

/-- The fixed battery of `DefaultEvalCases` (the `time.Date` reference
    instant appears as its formatted text). -/
def DefaultEvalCases : List EvalCase :=
  [ { Name := "count_all", Query := "Count all items",
      ExpectedSQL := "SELECT COUNT(*) FROM order_items;",
      ReferenceTime := none, ExpectUnsupported := false }
  , { Name := "total_revenue", Query := "What is the total revenue?",
      ExpectedSQL := "SELECT SUM(price) FROM order_items;",
      ReferenceTime := none, ExpectUnsupported := false }
  , { Name := "avg_shipping", Query := "What is the average shipping cost?",
      ExpectedSQL := "SELECT AVG(freight_value) FROM order_items;",
      ReferenceTime := none, ExpectUnsupported := false }
  , { Name := "count_expensive", Query := "How many items cost more than 100?",
      ExpectedSQL := "SELECT COUNT(*) FROM order_items WHERE price > 100;",
      ReferenceTime := none, ExpectUnsupported := false }
  , { Name := "revenue_last_7_days",
      Query := "What is the total revenue from the last 7 days?",
      ExpectedSQL := "SELECT SUM(price) FROM order_items WHERE shipping_limit_date > '2024-06-08 12:00:00';",
      ReferenceTime := some "2024-06-15 12:00:00", ExpectUnsupported := false }
  , { Name := "unsupported_weather", Query := "What's the weather like in Tokyo?",
      ExpectedSQL := "", ReferenceTime := none, ExpectUnsupported := true }
  , { Name := "unsupported_nonexistent_table",
      Query := "How many customers are from California?",
      ExpectedSQL := "", ReferenceTime := none, ExpectUnsupported := true } ]

/-- `RunEvals`: the harness over the default case battery. -/
def RunEvals (gen : String → Option String → GenOutcome)
    (exec : String → Except String TinybirdResponse) : List EvalResult × Option String :=
  RunEvalsCore gen exec DefaultEvalCases

/-- `ComputeSummary`: count passed and failed, and the percentage pass
    rate (zero for an empty result list). -/
def ComputeSummary (results : List EvalResult) : EvalSummary :=
  { Total := results.length
    Passed := (results.filter (fun r => r.Passed)).length
    Failed := (results.filter (fun r => ¬ r.Passed)).length
    PassRate :=
      if results.length > 0 then
        ((results.filter (fun r => r.Passed)).length : ℚ) / (results.length : ℚ) * 100
      else 0 }

/-! ### Helper lemmas -/

theorem length_filter_not_add (p : EvalResult → Bool) (l : List EvalResult) :
    (l.filter p).length + (l.filter (fun r => ¬ p r)).length = l.length := by
  induction l with
  | nil => rfl
  | cons x xs ih =>
    by_cases h : p x <;> simp [List.filter, h, ← ih] <;> omega

/-! ### Claim theorems -/

/-- Claim C9: for a result list of length N with exactly K non-passed
    entries, `ComputeSummary` reports total N, passed N-K, failed K and a
    pass rate of 100*(N-K)/N, with rate 0 when N = 0. -/
theorem computeSummary_spec (results : List EvalResult) :
    ComputeSummary results =
      { Total := results.length
        Passed := results.length - (results.filter (fun r => ¬ r.Passed)).length
        Failed := (results.filter (fun r => ¬ r.Passed)).length
        PassRate :=
          if results.length = 0 then 0
          else 100 * ((results.length : ℚ) -
            ((results.filter (fun r => ¬ r.Passed)).length : ℚ)) / (results.length : ℚ) } := by
  have hsplit := length_filter_not_add (fun r => r.Passed) results
  have hpassed : (results.filter (fun r => r.Passed)).length =
      results.length - (results.filter (fun r => ¬ r.Passed)).length := by omega
  unfold ComputeSummary
  have hrate :
      (if results.length > 0 then
        ((results.filter (fun r => r.Passed)).length : ℚ) / (results.length : ℚ) * 100
      else 0) =
      (if results.length = 0 then (0 : ℚ)
      else 100 * ((results.length : ℚ) -
        ((results.filter (fun r => ¬ r.Passed)).length : ℚ)) / (results.length : ℚ)) := by
    rcases Nat.eq_zero_or_pos results.length with h0 | hpos
    · simp [h0]
    · have hne : (results.length : ℚ) ≠ 0 := by
        exact_mod_cast Nat.pos_iff_ne_zero.mp hpos
      rw [if_pos hpos, if_neg (Nat.pos_iff_ne_zero.mp hpos), hpassed,
        Nat.cast_sub (by omega)]
      field_simp
      ring
  rw [hrate, hpassed]

/-- Claim C7: the query dispatched by `ExecuteQuery` is the input with
    surrounding whitespace trimmed and a single trailing semicolon removed,
    with the ` FORMAT JSON` output directive appended; the directive is
    appended to every query. Concrete instances demonstrate the trim, the
    removal of exactly one semicolon, and the no-semicolon case. -/
theorem executeQuery_dispatch_spec :
    (∀ sql : String,
      ExecuteQueryDispatch sql = specStripOneSemi (goTrimSpace sql) ++ " FORMAT JSON")
    ∧ (∀ sql : String, ∃ core : String, ExecuteQueryDispatch sql = core ++ " FORMAT JSON")
    ∧ ExecuteQueryDispatch "  SELECT 1;  " = "SELECT 1 FORMAT JSON"
    ∧ ExecuteQueryDispatch "SELECT 1;;" = "SELECT 1; FORMAT JSON"
    ∧ ExecuteQueryDispatch "SELECT 2" = "SELECT 2 FORMAT JSON" := by
  refine ⟨fun sql => rfl, fun sql => ⟨_, rfl⟩, by decide, by decide, by decide⟩

/-- Claim C5: when no output item is a `sql_generator` custom tool call
    and none is a `cannot_answer` function call, the generator returns the
    generic "no SQL generated in response" error, never the
    `ErrUnsupportedQuery` refusal. -/
theorem processOutput_no_channel (parse : String → Option CannotAnswerInput)
    (items : List OutputItem)
    (h : ∀ item ∈ items,
      ¬(item.«Type» = "custom_tool_call" ∧ item.Name = "sql_generator") ∧
      ¬(item.«Type» = "function_call" ∧ item.Name = "cannot_answer")) :
    processOutput parse items = .err "no SQL generated in response"
    ∧ ∀ reason, processOutput parse items ≠ .unsupported reason := by
  have hmain : processOutput parse items = .err "no SQL generated in response" := by
    induction items with
    | nil => rfl
    | cons item rest ih =>
      have hitem := h item (List.mem_cons_self item rest)
      rw [processOutput, if_neg hitem.1, if_neg hitem.2]
      exact ih (fun it hit => h it (List.mem_cons_of_mem item hit))
  exact ⟨hmain, fun reason => by rw [hmain]; intro hcon; cases hcon⟩

/-- Witness for C5 at a concrete response whose only item is a plain
    message. -/
theorem processOutput_no_channel_witness :
    processOutput (fun _ => none)
      [{ «Type» := "message", Name := "", Input := "hello" }] =
      .err "no SQL generated in response" :=
  (processOutput_no_channel (fun _ => none)
    [{ «Type» := "message", Name := "", Input := "hello" }] (by decide)).1

/-- Claim C10: with the schema not installed (empty grammar or empty tool
    description), `GenerateSQLWithTime` returns the "schema not set" error
    without consulting the generation service (the outcome does not depend
    on the service or parse oracles), the outcome is not the
    `ErrUnsupportedQuery` refusal, and `GenerateSQL` is the same
    computation at the current wall-clock instant. -/
theorem generateSQL_schema_not_set (c : OpenAIClient)
    (svc1 svc2 : ResponsesRequest → ServiceReply)
    (p1 p2 : String → Option CannotAnswerInput) (nl t now : String)
    (h : c.grammar = "" ∨ c.toolDescription = "") :
    GenerateSQLWithTime c svc1 p1 nl t =
      .err "schema not set: call SetSchema before GenerateSQL"
    ∧ GenerateSQLWithTime c svc1 p1 nl t = GenerateSQLWithTime c svc2 p2 nl t
    ∧ (∀ reason, GenerateSQLWithTime c svc1 p1 nl t ≠ .unsupported reason)
    ∧ GenerateSQL c svc1 p1 nl now = GenerateSQLWithTime c svc1 p1 nl now := by
  have h1 : GenerateSQLWithTime c svc1 p1 nl t =
      .err "schema not set: call SetSchema before GenerateSQL" := by
    rw [GenerateSQLWithTime, if_pos h]
  have h2 : GenerateSQLWithTime c svc2 p2 nl t =
      .err "schema not set: call SetSchema before GenerateSQL" := by
    rw [GenerateSQLWithTime, if_pos h]
  refine ⟨h1, h1.trans h2.symm, ?_, rfl⟩
  intro reason hcon
  rw [h1] at hcon
  cases hcon

/-- Witness for C10: a freshly constructed client (no `SetSchema`) returns
    the "schema not set" error for a concrete question. -/
theorem generateSQL_schema_not_set_witness :
    GenerateSQLWithTime { apiKey := "k", grammar := "", toolDescription := "" }
      (fun _ => ServiceReply.badJSON) (fun _ => none)
      "Count all items" "2024-06-15 12:00:00" =
      .err "schema not set: call SetSchema before GenerateSQL" :=
  (generateSQL_schema_not_set { apiKey := "k", grammar := "", toolDescription := "" }
    (fun _ => ServiceReply.badJSON) (fun _ => ServiceReply.badJSON)
    (fun _ => none) (fun _ => none)
    "Count all items" "2024-06-15 12:00:00" "2024-06-15 12:00:00" (Or.inl rfl)).1

/-- Claim C6, counterexample to "never produces an Unsupported outcome
    whose reason is the empty string": a refusal payload that unmarshals
    with an empty (or missing) `reason` field — Go decodes the JSON text
    `\x7b"reason":""\x7d` into `CannotAnswerInput{Reason: ""}` — is passed
    through verbatim, so the generator yields the refusal error with the
    empty reason. -/
theorem processOutput_empty_reason :
    processOutput (fun _ => some { Reason := "" })
      [{ «Type» := "function_call", Name := "cannot_answer",
         Input := "\x7b\"reason\":\"\"\x7d" }] =
      .unsupported "" := by
  decide

/-- Claim C6 amended: when the service uses the refusal channel (the first
    channel-bearing output item is a `cannot_answer` function call), a
    payload that fails to unmarshal yields the refusal outcome with the
    fixed generic reason — not a hard failure — while a payload that
    unmarshals has its reason passed through verbatim (and may therefore be
    empty). -/
theorem processOutput_refusal_spec (parse : String → Option CannotAnswerInput)
    (pre : List OutputItem) (item : OutputItem) (rest : List OutputItem)
    (hpre : ∀ it ∈ pre,
      ¬(it.«Type» = "custom_tool_call" ∧ it.Name = "sql_generator") ∧
      ¬(it.«Type» = "function_call" ∧ it.Name = "cannot_answer"))
    (htype : item.«Type» = "function_call") (hname : item.Name = "cannot_answer") :
    (parse item.Input = none →
      processOutput parse (pre ++ item :: rest) =
        .unsupported "Query cannot be answered with available data")
    ∧ (∀ input, parse item.Input = some input →
      processOutput parse (pre ++ item :: rest) = .unsupported input.Reason) := by
  have hskip : processOutput parse (pre ++ item :: rest) =
      processOutput parse (item :: rest) := by
    induction pre with
    | nil => rfl
    | cons p ps ih =>
      have hp := hpre p (List.mem_cons_self p ps)
      rw [List.cons_append, processOutput, if_neg hp.1, if_neg hp.2]
      exact ih (fun it hit => hpre it (List.mem_cons_of_mem p hit))
  have hnotsql : ¬(item.«Type» = "custom_tool_call" ∧ item.Name = "sql_generator") := by
    intro hcon
    rw [htype] at hcon
    exact absurd hcon.1 (by decide)
  have hhead : processOutput parse (item :: rest) =
      match parse item.Input with
      | none => .unsupported "Query cannot be answered with available data"
      | some input => .unsupported input.Reason := by
    rw [processOutput, if_neg hnotsql, if_pos ⟨htype, hname⟩]
  constructor
  · intro hnone
    rw [hskip, hhead, hnone]
  · intro input hsome
    rw [hskip, hhead, hsome]

/-- Witness for C6: a refusal item whose payload is not valid JSON
    produces the refusal outcome with the fixed generic reason. -/
theorem processOutput_refusal_spec_witness :
    processOutput (fun _ => none)
      [{ «Type» := "function_call", Name := "cannot_answer", Input := "not json" }] =
      .unsupported "Query cannot be answered with available data" :=
  (processOutput_refusal_spec (fun _ => none) []
    { «Type» := "function_call", Name := "cannot_answer", Input := "not json" }
    [] (by decide) rfl rfl).1 rfl

/-- The schema exercising a sanitizer collision: two distinct raw column
    names, `a b` and `a.b`, both sanitize to `COL_A_B`. -/
def collisionSchema : Schema :=
  { Datasources :=
      [ { Name := "t",
          Columns := [ { Name := "a b", «Type» := "String" },
                       { Name := "a.b", «Type» := "String" } ] } ] }

/-- Claim C2: the code evaluated at the colliding schema. Both raw names
    sanitize to the same terminal identifier, yet `GenerateGrammar` does
    not fail: it returns a complete grammar whose column block defines the
    terminal `COL_A_B` twice and repeats it in the `column:` alternation.
    No `GrammarCollision` (or any other) error path exists in the
    generator, whose Go type is a plain `string` return. -/
theorem generateGrammar_collision_emits :
    sanitizeColumnName "a b" = "COL_A_B"
    ∧ sanitizeColumnName "a.b" = "COL_A_B"
    ∧ "a b" ≠ "a.b"
    ∧ tableSection collisionSchema = "table: \"t\"\n\n"
    ∧ columnSectionOf (distinctColumnNames collisionSchema) =
        "COL_A_B: \"a b\"\nCOL_A_B: \"a.b\"\ncolumn: COL_A_B | COL_A_B\n\n"
    ∧ GenerateGrammar collisionSchema =
        grammarHeader ++ "# Tables\n" ++ tableSection collisionSchema ++ "# Columns\n" ++
          columnSectionOf (distinctColumnNames collisionSchema) ++ grammarFooter := by
  exact ⟨by decide, by decide, by decide, by decide, by decide, rfl⟩

/-- The empty schema (no datasources fetched). -/
def emptySchema : Schema := { Datasources := [] }

/-- Claim C1 counterexample: on the empty Schema the generator emits the
    catch-all production `table: IDENTIFIER`, which admits the identifier
    `foo` even though no table of that (or any) name exists in the Schema —
    so the grammar is not restricted to the table names present in S. -/
theorem grammar_names_counterexample :
    tableSection emptySchema = "table: IDENTIFIER\n\n"
    ∧ tableAdmits emptySchema "foo" = true
    ∧ "foo" ∉ emptySchema.Datasources.map Datasource.Name := by
  exact ⟨rfl, by decide, by decide⟩

/-- Claim C1 amended: for a Schema with at least one table and at least one
    column, the emitted `table:` and `column:` alternations admit exactly
    the table names, respectively the distinct raw column names, present in
    the Schema — no extras and no omissions. -/
theorem grammar_references_exact (s : Schema)
    (htab : s.Datasources ≠ []) (hcol : allColumnNames s ≠ []) :
    (∀ w, tableAdmits s w = true ↔ w ∈ s.Datasources.map Datasource.Name)
    ∧ (∀ w, columnAdmits s w = true ↔ w ∈ allColumnNames s) := by
  constructor
  · intro w
    have hlen : s.Datasources.length > 0 := by
      cases hd : s.Datasources with
      | nil => exact absurd hd htab
      | cons a l => simp [hd]
    rw [tableAdmits, if_pos hlen]
    simp only [List.contains, List.elem_eq_mem, decide_eq_true_eq]
    exact mem_sortStrings
  · intro w
    have hlen : (distinctColumnNames s).length > 0 := by
      cases hd : distinctColumnNames s with
      | nil =>
        rw [distinctColumnNames, List.dedup_eq_nil] at hd
        exact absurd hd hcol
      | cons a l => simp [hd]
    rw [columnAdmits, if_pos hlen]
    simp only [List.contains, List.elem_eq_mem, decide_eq_true_eq]
    rw [mem_sortStrings, distinctColumnNames, List.mem_dedup]

/-- A small concrete schema for witnesses: one table with two columns. -/
def sampleSchema : Schema :=
  { Datasources :=
      [ { Name := "order_items",
          Columns := [ { Name := "price", «Type» := "Float64" },
                       { Name := "freight_value", «Type» := "Float64" } ] } ] }

/-- Witness for C1 on a concrete schema: `order_items` is admitted as a
    table token, and the token `customers` (absent from the schema) is
    not. -/
theorem grammar_references_exact_witness :
    (tableAdmits sampleSchema "order_items" = true ↔
      "order_items" ∈ sampleSchema.Datasources.map Datasource.Name)
    ∧ (columnAdmits sampleSchema "customers" = true ↔
      "customers" ∈ allColumnNames sampleSchema) :=
  ⟨(grammar_references_exact sampleSchema (by decide) (by decide)).1 "order_items",
   (grammar_references_exact sampleSchema (by decide) (by decide)).2 "customers"⟩

/-- A schema with two columns, exercising the two possible map iteration
    orders of the generator's `columnSet`. -/
def twoColSchema : Schema :=
  { Datasources :=
      [ { Name := "t",
          Columns := [ { Name := "a", «Type» := "Int64" },
                       { Name := "b", «Type» := "Int64" } ] } ] }

/-- Claim C3 amended, shared-package part: the shared
    `Schema.GenerateGrammar` output does not depend on the order in which
    Go enumerates the `columnSet` map keys — any two enumerations of the
    key set give byte-identical grammar text (sorted enumeration), so equal
    Schemas give equal output. -/
theorem generateGrammar_deterministic (s : Schema) (e1 e2 : List String)
    (h1 : List.Perm e1 (distinctColumnNames s))
    (h2 : List.Perm e2 (distinctColumnNames s)) :
    GenerateGrammarWith s e1 = GenerateGrammarWith s e2 := by
  have hp : List.Perm e1 e2 := h1.trans h2.symm
  unfold GenerateGrammarWith columnSectionOf
  rw [sortStrings_eq_of_perm hp, hp.length_eq]

/-- Witness for C3: the two enumeration orders of `twoColSchema` give the
    same shared-package grammar text. -/
theorem generateGrammar_deterministic_witness :
    GenerateGrammarWith twoColSchema ["b", "a"] =
      GenerateGrammarWith twoColSchema ["a", "b"] :=
  generateGrammar_deterministic twoColSchema ["b", "a"] ["a", "b"]
    (by decide) (by decide)

/-- Claim C3 counterexample, legacy part: the legacy `package main`
    `Schema.GenerateGrammar` numbers its column terminals in map-iteration
    order, so the two possible enumerations of the same Schema produce
    different grammar text — the output is not a function of the Schema
    alone. -/
theorem legacyGenerateGrammar_order_dependent :
    List.Perm ["a", "b"] (distinctColumnNames twoColSchema)
    ∧ List.Perm ["b", "a"] (distinctColumnNames twoColSchema)
    ∧ legacyGenerateGrammarWith twoColSchema ["a", "b"] ≠
        legacyGenerateGrammarWith twoColSchema ["b", "a"] := by
  refine ⟨by decide, by decide, ?_⟩
  intro hcon
  have hsec : legacyColumnSection ["a", "b"] ≠ legacyColumnSection ["b", "a"] := by decide
  apply hsec
  have hdata := congrArg String.data hcon
  simp only [legacyGenerateGrammarWith, String.data_append, List.append_assoc] at hdata
  have hdata2 := List.append_cancel_left (List.append_cancel_left
    (List.append_cancel_left (List.append_cancel_left hdata)))
  have hdata3 : (legacyColumnSection ["a", "b"]).data =
      (legacyColumnSection ["b", "a"]).data := by
    have h4 : (legacyColumnSection ["a", "b"]).data ++ legacyFooter.data =
        (legacyColumnSection ["b", "a"]).data ++ legacyFooter.data := hdata2
    exact List.append_cancel_right h4
  cases hca : legacyColumnSection ["a", "b"] with
  | mk d1 =>
    cases hcb : legacyColumnSection ["b", "a"] with
    | mk d2 =>
      rw [hca, hcb] at hdata3
      exact congrArg String.mk hdata3

theorem goAbs_eq_abs (x : ℚ) : goAbs x = |x| := by
  by_cases h : x < 0
  · rw [goAbs, if_pos h, abs_of_neg h]
  · rw [goAbs, if_neg h, abs_of_nonneg (le_of_not_lt h)]

theorem valuesEqualNum_iff (a b : ℚ) :
    valuesEqualNum a b = true ↔
      (a = b ∨ ((a + b) / 2 = 0 ∧ |a - b| < 1 / 10000)
        ∨ ((a + b) / 2 ≠ 0 ∧ |a - b| / |(a + b) / 2| < 1 / 10000)) := by
  unfold valuesEqualNum
  simp only [goAbs_eq_abs]
  by_cases hab : a = b
  · simp [hab]
  · rw [if_neg hab]
    by_cases havg : (a + b) / 2 = 0
    · have hcond : |(a + b) / 2| = 0 := by rw [havg, abs_zero]
      rw [if_pos hcond, decide_eq_true_eq]
      constructor
      · intro h; exact Or.inr (Or.inl ⟨havg, h⟩)
      · rintro (h | ⟨_, h⟩ | ⟨hne, _⟩)
        · exact absurd h hab
        · exact h
        · exact absurd havg hne
    · have habs : ¬(|(a + b) / 2| = 0) := fun hc => havg (abs_eq_zero.mp hc)
      rw [if_neg habs, decide_eq_true_eq]
      constructor
      · intro h; exact Or.inr (Or.inr ⟨havg, h⟩)
      · rintro (h | ⟨h0, _⟩ | ⟨_, h⟩)
        · exact absurd h hab
        · exact absurd h0 havg
        · exact h

/-- Claim C4 counterexample: no positive constant `epsilon` makes the
    specification formula `|a-b| / max(|avg(a,b)|, epsilon) < 1e-4` agree
    with the implemented comparison on all numeric inputs. For `epsilon < 1`
    the two sides disagree at `a = -epsilon/20000, b = epsilon/20000` (the
    code accepts, the formula rejects); for `epsilon ≥ 1` they disagree at
    `a = 0.1, b = 0.10005` (the code rejects, the formula accepts). -/
theorem valuesEqual_not_spec_formula :
    ¬ ∃ eps : ℚ, 0 < eps ∧
      ∀ a b : ℚ, valuesEqualNum a b = specTolerantEqual eps a b := by
  rintro ⟨eps, heps, h⟩
  by_cases h1 : eps < 1
  · -- zero-average disagreement point
    have ht0 : 0 < eps / 20000 := by positivity
    have hcode : valuesEqualNum (-(eps / 20000)) (eps / 20000) = true := by
      rw [valuesEqualNum_iff]
      refine Or.inr (Or.inl ⟨by ring, ?_⟩)
      have habs : |(-(eps / 20000)) - eps / 20000| = eps / 10000 := by
        rw [abs_of_nonpos (by linarith)]
        ring
      rw [habs]
      linarith
    have hspec : specTolerantEqual eps (-(eps / 20000)) (eps / 20000) = false := by
      unfold specTolerantEqual
      rw [decide_eq_false_iff_not]
      rintro (hc | hc)
      · linarith
      · have havg : |((-(eps / 20000)) + eps / 20000) / 2| = 0 := by
          rw [show ((-(eps / 20000)) + eps / 20000) / 2 = 0 by ring, abs_zero]
        have habs : |(-(eps / 20000)) - eps / 20000| = eps / 10000 := by
          rw [abs_of_nonpos (by linarith)]
          ring
        rw [havg, habs, max_eq_right heps.le] at hc
        rw [div_lt_iff₀ heps] at hc
        have : eps / 10000 = 1 / 10000 * eps := by ring
        linarith
    rw [h _ _, hspec] at hcode
    cases hcode
  · -- small-average disagreement point
    push_neg at h1
    have hcode : valuesEqualNum (1 / 10) (2001 / 20000) = false := by
      rw [Bool.eq_false_iff]
      intro hc
      rw [valuesEqualNum_iff] at hc
      rcases hc with hc | ⟨hc, _⟩ | ⟨_, hc⟩
      · norm_num at hc
      · norm_num at hc
      · rw [show ((1 : ℚ) / 10 + 2001 / 20000) / 2 = 4001 / 40000 by norm_num,
          show ((1 : ℚ) / 10 - 2001 / 20000) = -(1 / 20000) by norm_num,
          abs_of_nonpos (by norm_num), abs_of_nonneg (by norm_num)] at hc
        norm_num at hc
    have hspec : specTolerantEqual eps (1 / 10) (2001 / 20000) = true := by
      unfold specTolerantEqual
      rw [decide_eq_true_eq]
      right
      rw [show ((1 : ℚ) / 10 + 2001 / 20000) / 2 = 4001 / 40000 by norm_num,
        show ((1 : ℚ) / 10 - 2001 / 20000) = -(1 / 20000) by norm_num,
        abs_of_nonpos (by norm_num), abs_of_nonneg (by norm_num),
        max_eq_right (by linarith : (4001 : ℚ) / 40000 ≤ eps),
        div_lt_iff₀ heps]
      nlinarith
    rw [h _ _, hspec] at hcode
    cases hcode

/-- Claim C4 amended: for two numeric values the comparison accepts exactly
    when they are identical, or the average is zero and `|a-b| < 1e-4`, or
    the average is nonzero and the relative difference `|a-b| / |avg(a,b)|`
    is below `1e-4` (the implementation divides by `|avg|` whenever it is
    nonzero, however small, and compares `|a-b|` directly when it is zero);
    when either side is non-numeric the comparison is structural deep
    equality. In particular `compare(100.00001, 100.00002)` is equal,
    `compare(1, 2)` is not, and `compare("a","a")` is equal. -/
theorem valuesEqual_tolerance_spec :
    (∀ a b : ℚ, valuesEqual (.vFloat64 a) (.vFloat64 b) = true ↔
      (a = b ∨ ((a + b) / 2 = 0 ∧ |a - b| < 1 / 10000)
        ∨ ((a + b) / 2 ≠ 0 ∧ |a - b| / |(a + b) / 2| < 1 / 10000)))
    ∧ (∀ a b : Value, toFloat a = none ∨ toFloat b = none →
        (valuesEqual a b = true ↔ a = b))
    ∧ valuesEqual (.vFloat64 (10000001 / 100000)) (.vFloat64 (10000002 / 100000)) = true
    ∧ valuesEqual (.vFloat64 1) (.vFloat64 2) = false
    ∧ valuesEqual (.vStr "a") (.vStr "a") = true := by
  have hnum : ∀ a b : ℚ, valuesEqual (.vFloat64 a) (.vFloat64 b) = valuesEqualNum a b :=
    fun a b => rfl
  refine ⟨?_, ?_, ?_, ?_, by decide⟩
  · intro a b
    rw [hnum, valuesEqualNum_iff]
  · intro a b hno
    have hde : valuesEqual a b = decide (a = b) := by
      rcases hno with hna | hnb
      · cases a <;> simp_all [valuesEqual, toFloat]
      · cases b <;> cases a <;> simp_all [valuesEqual, toFloat]
    rw [hde, decide_eq_true_eq]
  · rw [hnum, valuesEqualNum_iff]
    refine Or.inr (Or.inr ⟨by norm_num, ?_⟩)
    rw [show ((10000001 : ℚ) / 100000 + 10000002 / 100000) / 2 = 20000003 / 200000 by norm_num,
      show ((10000001 : ℚ) / 100000 - 10000002 / 100000) = -(1 / 100000) by norm_num,
      abs_of_nonpos (by norm_num), abs_of_nonneg (by norm_num)]
    norm_num
  · rw [hnum, Bool.eq_false_iff]
    intro hc
    rw [valuesEqualNum_iff] at hc
    rcases hc with hc | ⟨hc, _⟩ | ⟨_, hc⟩
    · norm_num at hc
    · norm_num at hc
    · rw [show ((1 : ℚ) + 2) / 2 = 3 / 2 by norm_num,
        show ((1 : ℚ) - 2) = -1 by norm_num,
        abs_of_nonpos (by norm_num), abs_of_nonneg (by norm_num)] at hc
      norm_num at hc

/-- Witness for C4 on the structural fallback: a string compared with a
    number falls through to deep equality. -/
theorem valuesEqual_tolerance_spec_witness :
    valuesEqual (Value.vStr "x") (Value.vFloat64 1) = true ↔
      Value.vStr "x" = Value.vFloat64 1 :=
  valuesEqual_tolerance_spec.2.1 (Value.vStr "x") (Value.vFloat64 1) (Or.inl rfl)

theorem runEval_name_query (gen : String → Option String → GenOutcome)
    (exec : String → Except String TinybirdResponse) (tc : EvalCase) :
    (runEval gen exec tc).Name = tc.Name ∧ (runEval gen exec tc).Query = tc.Query := by
  unfold runEval runUnsupportedEval
  split
  · split <;> exact ⟨rfl, rfl⟩
  · split
    · exact ⟨rfl, rfl⟩
    · split
      · split
        · exact ⟨rfl, rfl⟩
        · split
          · exact ⟨rfl, rfl⟩
          · split <;> exact ⟨rfl, rfl⟩
      · exact ⟨rfl, rfl⟩

theorem firstFailure_eq_none_iff (l : List EvalResult) :
    firstFailure l = none ↔ l.all (fun r => r.Passed) = true := by
  induction l with
  | nil => simp [firstFailure]
  | cons r rest ih =>
    by_cases h : r.Passed
    · simp [firstFailure, h, ih]
    · simp [firstFailure, h]

theorem firstFailure_eq_find (l : List EvalResult) :
    firstFailure l = (l.find? (fun r => !r.Passed)).map
      (fun r => "eval " ++ r.Name ++ " failed: " ++ r.Error) := by
  induction l with
  | nil => rfl
  | cons r rest ih =>
    by_cases h : r.Passed
    · simp [firstFailure, h, ih]
    · simp [firstFailure, h]

/-- Claim C8: the harness returns one result per case, the result at index
    i being exactly `runEval` of the case at index i (so it carries that
    case's name and query, and no case blocks any other: slot i depends
    only on case i); the overall error is `none` exactly when every case
    passed, and otherwise it is the formatted failure message of the
    lowest-index failing case (the first non-passed result found by the
    scan). Concurrency note: the Go harness spawns one goroutine per case
    writing into the disjoint pre-sized slot `results[idx]` and joins
    before scanning, which the per-index map models. `RunEvals` itself is
    this computation applied to the fixed default case battery. -/
theorem runEvals_index_stable (gen : String → Option String → GenOutcome)
    (exec : String → Except String TinybirdResponse) (cases : List EvalCase) :
    (RunEvalsCore gen exec cases).1.length = cases.length
    ∧ (∀ i : ℕ, (RunEvalsCore gen exec cases).1[i]? =
        (cases[i]?).map (runEval gen exec))
    ∧ (∀ i : ℕ, ((RunEvalsCore gen exec cases).1[i]?).map EvalResult.Name =
        (cases[i]?).map EvalCase.Name)
    ∧ (∀ i : ℕ, ((RunEvalsCore gen exec cases).1[i]?).map EvalResult.Query =
        (cases[i]?).map EvalCase.Query)
    ∧ ((RunEvalsCore gen exec cases).2 = none ↔
        (RunEvalsCore gen exec cases).1.all (fun r => r.Passed) = true)
    ∧ (RunEvalsCore gen exec cases).2 =
        ((RunEvalsCore gen exec cases).1.find? (fun r => !r.Passed)).map
          (fun r => "eval " ++ r.Name ++ " failed: " ++ r.Error)
    ∧ RunEvals gen exec = RunEvalsCore gen exec DefaultEvalCases := by
  refine ⟨List.length_map cases (runEval gen exec), ?_, ?_, ?_,
    firstFailure_eq_none_iff _, firstFailure_eq_find _, rfl⟩
  · intro i
    exact List.getElem?_map (runEval gen exec) cases i
  · intro i
    rw [RunEvalsCore]
    rw [List.getElem?_map, Option.map_map]
    cases hc : cases[i]? with
    | none => rfl
    | some tc =>
      simp only [Option.map_some', Function.comp_apply]
      rw [(runEval_name_query gen exec tc).1]
  · intro i
    rw [RunEvalsCore]
    rw [List.getElem?_map, Option.map_map]
    cases hc : cases[i]? with
    | none => rfl
    | some tc =>
      simp only [Option.map_some', Function.comp_apply]
      rw [(runEval_name_query gen exec tc).2]
